import Mathlib

/-!
Verification of the Cricsheet CSV ingestion pipeline
(`cricsheet_data_ingestion.py`, class `CricsheetDataIngestor`).

The Python module is shallowly embedded:
  * pandas cell values become the inductive type `Cell` (`null` models a
    pandas NaN, `str` a text value, `num` a numeric value);
  * the temporary extraction directory becomes `TempDir`, an association of
    file names to parsed file contents (info files and ball-by-ball files
    are kept in two maps because the two `pd.read_csv` call sites parse
    them with different shapes); paths are taken relative to `temp_dir`;
  * the BigQuery collaborator becomes `BigQueryStore`: a flag recording
    whether the match-info table exists (the `get_table` / `NotFound`
    check) plus the `match_id` column of that table;
  * `print` calls become structured `LogMsg` values threaded through the
    functions that emit them;
  * `save_data_to_gbq` calls are recorded in the `flushes` field of
    `IngestState` (the destination is append-only, so recording the
    appended pair of concatenated tables is the whole effect).

Each function keeps the name it has in the Python source.
-/

namespace Cricsheet

/-- A pandas cell value: missing (NaN), text, or numeric. -/
inductive Cell where
  | null : Cell
  | str : String → Cell
  | num : Int → Cell
deriving DecidableEq, Repr

/-- `Series.astype(str)`: every cell becomes text; a pandas NaN stringifies
to `"nan"`. -/
def astypeStr : Cell → Cell
  | Cell.null => Cell.str "nan"
  | Cell.str s => Cell.str s
  | Cell.num n => Cell.str (toString n)

/-- One row of an `<id>_info.csv` file as read with the five explicit
column names passed to `pd.read_csv` in `load_info_csv`. -/
structure InfoRow where
  row_type : String
  info_category : String
  info_value : String
  info_value_2 : String
  info_value_3 : String
deriving DecidableEq, Repr

/-- An info row after `load_info_csv` has added the `match_id` column. -/
structure InfoRec where
  row : InfoRow
  match_id : String
deriving DecidableEq, Repr

/-- One row of an `<id>.csv` ball-by-ball file.  The four columns touched
by `load_ball_csv` are explicit; the remaining columns of the file are
carried unchanged in `rest`.  The two dismissal columns are text-or-missing
in the source data, hence `Option String`. -/
structure BallRow where
  match_id : Cell
  season : Cell
  other_wicket_type : Option String
  other_player_dismissed : Option String
  rest : List Cell
deriving DecidableEq, Repr

/-- A `print` call, recorded structurally: the run-start count message, the
per-flush progress message, and the missing-file message of
`get_valid_csv_fp` (whose text distinguishes info from ball files). -/
inductive LogMsg where
  | countNew (n : Nat)
  | processed (n : Nat)
  | missingFile (match_id : String) (info_file : Bool)
deriving DecidableEq, Repr

/-- The temporary extraction directory `/tmp/cricsheet_data`: file names
paired with parsed contents. -/
structure TempDir where
  infoFiles : List (String × List InfoRow)
  ballFiles : List (String × List BallRow)
deriving DecidableEq, Repr

/-- `os.listdir(self.temp_dir)`: the names of all files present. -/
def dirListing (d : TempDir) : List String :=
  d.infoFiles.map Prod.fst ++ d.ballFiles.map Prod.fst

/-- The BigQuery collaborator: whether
`{project}.{dataset}.{match_info_table}` exists, and the `match_id` column
of its rows when it does. -/
structure BigQueryStore where
  matchInfoTableExists : Bool
  matchInfoMatchIds : List String
deriving DecidableEq, Repr

/-- `get_existing_match_ids`: if `get_table` raises `NotFound` return `[]`,
otherwise run `select distinct match_id` over the match-info table. -/
def get_existing_match_ids (bq : BigQueryStore) : List String :=
  if bq.matchInfoTableExists then bq.matchInfoMatchIds.dedup else []

/-- `get_match_id`: `csv_file_name.split(".")[0]`, i.e. the prefix of the
name before its first `'.'` (the whole name when there is no `'.'`). -/
def get_match_id (csv_file_name : String) : String :=
  String.mk (csv_file_name.data.takeWhile (fun c => decide (c ≠ '.')))

/-- Does `l` start with `pat`? (character-list version of `str.startswith`). -/
def startsWithList : List Char → List Char → Bool
  | _, [] => true
  | [], _ :: _ => false
  | c :: cs, p :: ps => (c == p) && startsWithList cs ps

/-- Does `pat` occur contiguously inside `l`? (the Python `pat in x` test). -/
def containsList (pat : List Char) : List Char → Bool
  | [] => pat.isEmpty
  | c :: cs => startsWithList (c :: cs) pat || containsList pat cs

/-- Does `l` end with `pat`? (the Python `x.endswith(pat)` test). -/
def endsWithList (pat l : List Char) : Bool :=
  startsWithList l.reverse pat.reverse

/-- `get_csv_files`: the directory entries with `"_info" not in x` and
`x.endswith(".csv")`. -/
def get_csv_files (listing : List String) : List String :=
  listing.filter
    (fun x => !(containsList "_info".data x.data) && endsWithList ".csv".data x.data)

/-- `get_match_ids_to_process`: map `get_match_id` over the CSV file names
and take the set difference `set(prospective) - set(existing)` as a list. -/
def get_match_ids_to_process
    (downloaded_csv_files existing_match_ids : List String) : List String :=
  let prospective_match_ids := downloaded_csv_files.map get_match_id
  prospective_match_ids.dedup.filter (fun m => decide (m ∉ existing_match_ids))

/-- `get_valid_csv_fp`: build `<id>_info.csv` or `<id>.csv`, test
`os.path.exists`, and on a miss print the missing-file message and return
`None`. -/
def get_valid_csv_fp (d : TempDir) (match_id : String) (info_file : Bool) :
    Option String × List LogMsg :=
  let csv_fp : String :=
    if info_file then match_id ++ "_info.csv" else match_id ++ ".csv"
  let fileExists : Bool :=
    if info_file then (d.infoFiles.map Prod.fst).contains csv_fp
    else (d.ballFiles.map Prod.fst).contains csv_fp
  if fileExists then (some csv_fp, [])
  else (none, [LogMsg.missingFile match_id info_file])

/-- `load_info_csv`: empty frame when the info file is missing, otherwise
the parsed rows with the `match_id` column appended. -/
def load_info_csv (d : TempDir) (match_id : String) :
    List InfoRec × List LogMsg :=
  let fp := get_valid_csv_fp d match_id true
  match fp.1 with
  | none => ([], fp.2)
  | some p =>
      (((d.infoFiles.lookup p).getD []).map (fun r => InfoRec.mk r match_id), fp.2)

/-- The per-row effect of `load_ball_csv`'s repairs: `fillna("")` on the
two dismissal columns and `astype(str)` on `season` and `match_id`. -/
def fixBallRow (r : BallRow) : BallRow :=
  { r with
    other_wicket_type := some (r.other_wicket_type.getD "")
    other_player_dismissed := some (r.other_player_dismissed.getD "")
    season := astypeStr r.season
    match_id := astypeStr r.match_id }

/-- `load_ball_csv`: empty frame when the ball file is missing, otherwise
the parsed rows with the fillna/astype repairs applied. -/
def load_ball_csv (d : TempDir) (match_id : String) :
    List BallRow × List LogMsg :=
  let fp := get_valid_csv_fp d match_id false
  match fp.1 with
  | none => ([], fp.2)
  | some p => (((d.ballFiles.lookup p).getD []).map fixBallRow, fp.2)

/-- `batch_size = 500` in `ingest`. -/
def batch_size : Nat := 500

/-- The mutable state of `ingest`'s loop: the two accumulator lists, the
`num_files_processed` counter, the batches appended so far by
`save_data_to_gbq` (each a pair of `pd.concat`-enated tables), and the
messages printed so far. -/
structure IngestState where
  batch_info_dfs : List (List InfoRec)
  batch_ball_dfs : List (List BallRow)
  num_files_processed : Nat
  flushes : List (List InfoRec × List BallRow)
  log : List LogMsg
deriving DecidableEq, Repr

/-- The state of `ingest` just before its loop, after printing the count
of match IDs to process. -/
def initState (count_of_new_matches : Nat) : IngestState :=
  IngestState.mk [] [] 0 [] [LogMsg.countNew count_of_new_matches]

/-- One iteration of `ingest`'s `for match_id in match_ids_to_process`
loop: load and append both frames, then flush when the accumulated count
reaches `batch_size` or `current_batch_size + num_files_processed` equals
the count of new matches. -/
def ingestStep (d : TempDir) (count_of_new_matches : Nat)
    (st : IngestState) (match_id : String) : IngestState :=
  let batch_info_dfs := st.batch_info_dfs ++ [(load_info_csv d match_id).1]
  let batch_ball_dfs := st.batch_ball_dfs ++ [(load_ball_csv d match_id).1]
  let current_batch_size := batch_info_dfs.length
  let log := st.log ++ (load_info_csv d match_id).2 ++ (load_ball_csv d match_id).2
  if current_batch_size = batch_size ∨
      current_batch_size + st.num_files_processed = count_of_new_matches then
    IngestState.mk [] [] (st.num_files_processed + batch_size)
      (st.flushes ++ [(batch_info_dfs.flatten, batch_ball_dfs.flatten)])
      (log ++ [LogMsg.processed (st.num_files_processed + batch_size)])
  else
    { st with
      batch_info_dfs := batch_info_dfs
      batch_ball_dfs := batch_ball_dfs
      log := log }

/-- One record per loop iteration: the state just before and just after
the iteration's `ingestStep`. -/
structure IterRec where
  pre : IngestState
  post : IngestState
deriving DecidableEq, Repr

/-- The iteration-by-iteration trace of `ingest`'s loop. -/
def ingestIters (d : TempDir) (count_of_new_matches : Nat) :
    IngestState → List String → List IterRec
  | _, [] => []
  | st, m :: ms =>
      let st2 := ingestStep d count_of_new_matches st m
      IterRec.mk st st2 :: ingestIters d count_of_new_matches st2 ms

/-- `delete_temp_dir`: the `shutil.rmtree` call is commented out and the
body is `pass`. -/
def delete_temp_dir (d : TempDir) : TempDir := d

/-- `ingest`: list the CSV files, query the existing match IDs, diff, run
the batching loop over the new IDs, then call `delete_temp_dir`.  Returns
the final loop state together with the temporary directory as it stands
after the `delete_temp_dir` call. -/
def ingest (d : TempDir) (bq : BigQueryStore) : IngestState × TempDir :=
  let downloaded_csv_files := get_csv_files (dirListing d)
  let existing_match_ids := get_existing_match_ids bq
  let match_ids_to_process :=
    get_match_ids_to_process downloaded_csv_files existing_match_ids
  let count_of_new_matches := match_ids_to_process.length
  let final := match_ids_to_process.foldl (ingestStep d count_of_new_matches)
    (initState count_of_new_matches)
  (final, delete_temp_dir d)

/-- Sample parsed rows and stores used to instantiate the theorems below
on concrete inputs. -/
def sampleBallRow : BallRow :=
  BallRow.mk (Cell.num 100) (Cell.num 2023) none none []

def sampleInfoRow : InfoRow :=
  InfoRow.mk "info" "venue" "Lords" "" ""

def bqEmpty : BigQueryStore := BigQueryStore.mk false []

def tempDirTwoBalls : TempDir :=
  TempDir.mk [] [("a.csv", [sampleBallRow]), ("b.csv", [sampleBallRow])]

def tempDirOneBall : TempDir :=
  TempDir.mk [] [("m1.csv", [sampleBallRow])]

def tempDirInfoOnly : TempDir :=
  TempDir.mk [("m3_info.csv", [sampleInfoRow])] []

/-! ### Helper lemmas -/

theorem takeWhile_append_stop (l l2 : List Char) (hl : ∀ c ∈ l, c ≠ '.') :
    (l ++ '.' :: l2).takeWhile (fun c => decide (c ≠ '.')) = l := by
  induction l with
  | nil => rfl
  | cons a l ih =>
      have ha : a ≠ '.' := hl a (by simp)
      have hpa : (fun c => decide (c ≠ '.')) a = true := decide_eq_true ha
      rw [List.cons_append,
        @List.takeWhile_cons_of_pos Char (fun c => decide (c ≠ '.')) a
          (l ++ '.' :: l2) hpa,
        ih (fun c hc => hl c (List.mem_cons_of_mem a hc))]

theorem takeWhile_of_all (l : List Char) (hl : ∀ c ∈ l, c ≠ '.') :
    l.takeWhile (fun c => decide (c ≠ '.')) = l := by
  induction l with
  | nil => rfl
  | cons a l ih =>
      have hpa : (fun c => decide (c ≠ '.')) a = true :=
        decide_eq_true (hl a (by simp))
      rw [@List.takeWhile_cons_of_pos Char (fun c => decide (c ≠ '.')) a l hpa,
        ih (fun c hc => hl c (List.mem_cons_of_mem a hc))]

theorem string_mk_data (s : String) : String.mk s.data = s := rfl

theorem startsWithList_iff (pat : List Char) :
    ∀ l : List Char, startsWithList l pat = true ↔ ∃ t, l = pat ++ t := by
  induction pat with
  | nil =>
      intro l
      constructor
      · intro _; exact ⟨l, rfl⟩
      · intro _; cases l <;> rfl
  | cons p ps ih =>
      intro l
      cases l with
      | nil =>
          simp only [startsWithList]
          constructor
          · intro h; exact absurd h (by simp)
          · rintro ⟨t, ht⟩; exact absurd ht (by simp)
      | cons c cs =>
          simp only [startsWithList, Bool.and_eq_true, beq_iff_eq, ih cs]
          constructor
          · rintro ⟨rfl, t, rfl⟩; exact ⟨t, rfl⟩
          · rintro ⟨t, ht⟩
            rw [List.cons_append] at ht
            obtain ⟨rfl, rfl⟩ : c = p ∧ cs = ps ++ t := by
              exact ⟨(List.cons.injEq _ _ _ _ ▸ ht).1, (List.cons.injEq _ _ _ _ ▸ ht).2⟩
            exact ⟨rfl, t, rfl⟩

theorem containsList_iff (pat : List Char) :
    ∀ l : List Char, containsList pat l = true ↔ ∃ s t, l = s ++ pat ++ t := by
  intro l
  induction l with
  | nil =>
      simp only [containsList, List.isEmpty_iff]
      constructor
      · rintro rfl; exact ⟨[], [], rfl⟩
      · rintro ⟨s, t, hst⟩
        rcases List.append_eq_nil.mp (List.append_eq_nil.mp hst.symm).1 with ⟨-, h2⟩
        exact h2
  | cons c cs ih =>
      simp only [containsList, Bool.or_eq_true, startsWithList_iff, ih]
      constructor
      · rintro (⟨t, ht⟩ | ⟨s, t, hst⟩)
        · exact ⟨[], t, by simpa using ht⟩
        · exact ⟨c :: s, t, by simp [hst]⟩
      · rintro ⟨s, t, hst⟩
        cases s with
        | nil => exact Or.inl ⟨t, by simpa using hst⟩
        | cons a s' =>
            right
            refine ⟨s', t, ?_⟩
            have := (List.cons.injEq _ _ _ _ ▸ (by simpa using hst :
              c :: cs = a :: (s' ++ pat ++ t))).2
            exact this

theorem endsWithList_iff (pat l : List Char) :
    endsWithList pat l = true ↔ ∃ p, l = p ++ pat := by
  unfold endsWithList
  rw [startsWithList_iff]
  constructor
  · rintro ⟨t, ht⟩
    refine ⟨t.reverse, ?_⟩
    have := congrArg List.reverse ht
    simpa using this
  · rintro ⟨p, rfl⟩
    exact ⟨p.reverse, by simp⟩

theorem ingestIters_length (d : TempDir) (count : Nat) :
    ∀ (ms : List String) (st : IngestState),
      (ingestIters d count st ms).length = ms.length
  | [], _ => rfl
  | _ :: ms, st => by
      simp only [ingestIters, List.length_cons]
      rw [ingestIters_length d count ms]

/-- Loop invariant for `ingest`: as long as every earlier flush was a full
batch, `num_files_processed + batch_info_dfs.length` counts the matches
consumed so far, which makes the code's flush test
`current_batch_size + num_files_processed == count_of_new_matches`
equivalent to "the current match is the last of the run". -/
theorem flush_policy_aux (d : TempDir) (count : Nat) :
    ∀ (ms : List String) (st : IngestState) (done : Nat),
      st.num_files_processed + st.batch_info_dfs.length = done →
      done + ms.length = count →
      ∀ (i : Nat) (h : i < (ingestIters d count st ms).length),
        (((ingestIters d count st ms).get ⟨i, h⟩).post.flushes.length
            = ((ingestIters d count st ms).get ⟨i, h⟩).pre.flushes.length + 1 ↔
          (((ingestIters d count st ms).get ⟨i, h⟩).pre.batch_info_dfs.length + 1
              = batch_size ∨ done + i + 1 = count))
        ∧ (((ingestIters d count st ms).get ⟨i, h⟩).post.flushes.length
            = ((ingestIters d count st ms).get ⟨i, h⟩).pre.flushes.length + 1 →
            ((ingestIters d count st ms).get ⟨i, h⟩).post.batch_info_dfs = []
            ∧ ((ingestIters d count st ms).get ⟨i, h⟩).post.batch_ball_dfs = []) := by
  intro ms
  induction ms with
  | nil =>
      intro st done hinv htot i h
      simp [ingestIters] at h
  | cons m ms ih =>
      intro st done hinv htot i h
      simp only [List.length_cons] at htot
      cases i with
      | zero =>
          have hget : (ingestIters d count st (m :: ms)).get ⟨0, h⟩
              = IterRec.mk st (ingestStep d count st m) := rfl
          rw [hget]
          by_cases hc :
            ((st.batch_info_dfs ++ [(load_info_csv d m).1]).length = batch_size ∨
              (st.batch_info_dfs ++ [(load_info_csv d m).1]).length
                + st.num_files_processed = count)
          · have hpost : ingestStep d count st m = IngestState.mk [] []
                (st.num_files_processed + batch_size)
                (st.flushes ++
                  [((st.batch_info_dfs ++ [(load_info_csv d m).1]).flatten,
                    (st.batch_ball_dfs ++ [(load_ball_csv d m).1]).flatten)])
                ((st.log ++ (load_info_csv d m).2 ++ (load_ball_csv d m).2)
                  ++ [LogMsg.processed (st.num_files_processed + batch_size)]) := by
              simp only [ingestStep]
              rw [if_pos hc]
            rw [hpost]
            constructor
            · apply iff_of_true
              · simp
              · rcases hc with hc | hc
                · left
                  simpa using hc
                · right
                  have hc2 : st.batch_info_dfs.length + 1
                      + st.num_files_processed = count := by simpa using hc
                  omega
            · intro _
              exact ⟨rfl, rfl⟩
          · have hpost : ingestStep d count st m = { st with
                batch_info_dfs := st.batch_info_dfs ++ [(load_info_csv d m).1]
                batch_ball_dfs := st.batch_ball_dfs ++ [(load_ball_csv d m).1]
                log := st.log ++ (load_info_csv d m).2 ++ (load_ball_csv d m).2 } := by
              simp only [ingestStep]
              rw [if_neg hc]
            rw [hpost]
            rw [not_or] at hc
            obtain ⟨hc1, hc2⟩ := hc
            have hc1b : ¬ (st.batch_info_dfs.length + 1 = batch_size) := by
              intro hx
              exact hc1 (by simpa using hx)
            have hc2b : ¬ (st.batch_info_dfs.length + 1
                + st.num_files_processed = count) := by
              intro hx
              exact hc2 (by simpa using hx)
            constructor
            · apply iff_of_false
              · intro hA
                simp at hA
              · rintro (hB | hB)
                · exact hc1b hB
                · exact hc2b (by omega)
            · intro hA
              exfalso
              simp at hA
      | succ j =>
          have hj : j < (ingestIters d count (ingestStep d count st m) ms).length := by
            rw [ingestIters_length]
            rw [ingestIters_length] at h
            simp only [List.length_cons] at h
            omega
          have hget : (ingestIters d count st (m :: ms)).get ⟨j + 1, h⟩
              = (ingestIters d count (ingestStep d count st m) ms).get ⟨j, hj⟩ := rfl
          rw [hget]
          by_cases hfull :
              (st.batch_info_dfs ++ [(load_info_csv d m).1]).length = batch_size
          · have hc :
              ((st.batch_info_dfs ++ [(load_info_csv d m).1]).length = batch_size ∨
                (st.batch_info_dfs ++ [(load_info_csv d m).1]).length
                  + st.num_files_processed = count) := Or.inl hfull
            have hpost : ingestStep d count st m = IngestState.mk [] []
                (st.num_files_processed + batch_size)
                (st.flushes ++
                  [((st.batch_info_dfs ++ [(load_info_csv d m).1]).flatten,
                    (st.batch_ball_dfs ++ [(load_ball_csv d m).1]).flatten)])
                ((st.log ++ (load_info_csv d m).2 ++ (load_ball_csv d m).2)
                  ++ [LogMsg.processed (st.num_files_processed + batch_size)]) := by
              simp only [ingestStep]
              rw [if_pos hc]
            have hfull2 : st.batch_info_dfs.length + 1 = batch_size := by
              simpa using hfull
            have hinv2 : (ingestStep d count st m).num_files_processed
                + (ingestStep d count st m).batch_info_dfs.length = done + 1 := by
              rw [hpost]
              simp only [List.length_nil, Nat.add_zero]
              omega
            have hres := ih (ingestStep d count st m) (done + 1) hinv2
              (by omega) j hj
            have harith : done + 1 + j + 1 = done + (j + 1) + 1 := by omega
            rw [harith] at hres
            exact hres
          · by_cases hlast :
                (st.batch_info_dfs ++ [(load_info_csv d m).1]).length
                  + st.num_files_processed = count
            · exfalso
              have h1 : st.batch_info_dfs.length + 1 + st.num_files_processed
                  = count := by simpa using hlast
              rw [ingestIters_length] at hj
              omega
            · have hc :
                ¬ ((st.batch_info_dfs ++ [(load_info_csv d m).1]).length = batch_size ∨
                  (st.batch_info_dfs ++ [(load_info_csv d m).1]).length
                    + st.num_files_processed = count) := by
                rintro (h1 | h1)
                exacts [hfull h1, hlast h1]
              have hpost : ingestStep d count st m = { st with
                  batch_info_dfs := st.batch_info_dfs ++ [(load_info_csv d m).1]
                  batch_ball_dfs := st.batch_ball_dfs ++ [(load_ball_csv d m).1]
                  log := st.log ++ (load_info_csv d m).2 ++ (load_ball_csv d m).2 } := by
                simp only [ingestStep]
                rw [if_neg hc]
              have hinv2 : (ingestStep d count st m).num_files_processed
                  + (ingestStep d count st m).batch_info_dfs.length = done + 1 := by
                rw [hpost]
                simp only [List.length_append, List.length_cons, List.length_nil]
                omega
              have hres := ih (ingestStep d count st m) (done + 1) hinv2
                (by omega) j hj
              have harith : done + 1 + j + 1 = done + (j + 1) + 1 := by omega
              rw [harith] at hres
              exact hres

/-- The final state of `ingest`'s loop is the last post-state of the
iteration trace, so statements about `ingestIters` are statements about the
run of `ingest`. -/
theorem foldl_ingestStep_eq_iters (d : TempDir) (count : Nat) :
    ∀ (ms : List String) (st : IngestState),
      ms.foldl (ingestStep d count) st
        = ((ingestIters d count st ms).map IterRec.post).getLastD st
  | [], _ => rfl
  | m :: ms, st => by
      simp only [List.foldl_cons, ingestIters, List.map_cons, List.getLastD_cons]
      exact foldl_ingestStep_eq_iters d count ms (ingestStep d count st m)

/-! ### Claims -/

/-- Claim C4 counterexample: on the info-file name `1234_info.csv` the
extractor returns `1234_info`, not the leading token `1234` that the claim
states. -/
theorem get_match_id_info_counterexample :
    get_match_id "1234_info.csv" ≠ "1234" := by decide

/-- Claim C4 (amended): for a file name `<id>.<ext>` whose `<id>` contains
no `'.'`, `get_match_id` returns `<id>`; for `<id>_info.<ext>` it returns
the whole prefix `<id>_info` before the first `'.'` (not `<id>`); and for a
name with no separator it returns the entire name unchanged. -/
theorem get_match_id_spec (id ext : String) (hid : ∀ c ∈ id.data, c ≠ '.') :
    get_match_id (id ++ "." ++ ext) = id ∧
    get_match_id (id ++ "_info." ++ ext) = id ++ "_info" ∧
    get_match_id id = id := by
  refine ⟨?_, ?_, ?_⟩
  · show String.mk (((id ++ "." ++ ext).data).takeWhile _) = id
    have hdata : (id ++ "." ++ ext).data = id.data ++ '.' :: ext.data := by
      simp [String.data_append]
    rw [hdata, takeWhile_append_stop id.data ext.data hid, string_mk_data]
  · show String.mk (((id ++ "_info." ++ ext).data).takeWhile _) = id ++ "_info"
    have hdata : (id ++ "_info." ++ ext).data
        = (id.data ++ ['_', 'i', 'n', 'f', 'o']) ++ '.' :: ext.data := by
      simp [String.data_append]
    have hall : ∀ c ∈ id.data ++ ['_', 'i', 'n', 'f', 'o'], c ≠ '.' := by
      intro c hc
      rcases List.mem_append.mp hc with hc | hc
      · exact hid c hc
      · simp only [List.mem_cons, List.not_mem_nil, or_false] at hc
        rcases hc with rfl | rfl | rfl | rfl | rfl <;> decide
    rw [hdata, takeWhile_append_stop _ ext.data hall]
    have : (id ++ "_info").data = id.data ++ ['_', 'i', 'n', 'f', 'o'] := by
      simp [String.data_append]
    rw [← this, string_mk_data]
  · show String.mk ((id.data).takeWhile _) = id
    rw [takeWhile_of_all id.data hid, string_mk_data]

/-- Witness for `get_match_id_spec` at `id = "1234"`, `ext = "csv"`. -/
theorem get_match_id_spec_witness :
    get_match_id ("1234" ++ "." ++ "csv") = "1234" ∧
    get_match_id ("1234" ++ "_info." ++ "csv") = "1234" ++ "_info" ∧
    get_match_id "1234" = "1234" :=
  get_match_id_spec "1234" "csv" (by decide)

/-- Claim C1: membership in the list returned by `get_match_ids_to_process`
is exactly membership in the set of IDs extracted from the file names minus
the set of existing IDs; and when those two sets coincide the returned list
is empty. -/
theorem get_match_ids_to_process_spec (files existing : List String)
    (x : String) :
    (x ∈ get_match_ids_to_process files existing ↔
      x ∈ files.map get_match_id ∧ x ∉ existing) ∧
    ((∀ y ∈ files.map get_match_id, y ∈ existing) →
      (∀ y ∈ existing, y ∈ files.map get_match_id) →
      get_match_ids_to_process files existing = []) := by
  constructor
  · simp [get_match_ids_to_process, List.mem_filter, List.mem_dedup]
  · intro hsub _
    simp only [get_match_ids_to_process]
    rw [List.filter_eq_nil_iff]
    intro a ha
    have : a ∈ files.map get_match_id := List.mem_dedup.mp ha
    simp [hsub a this]

/-- Witness for `get_match_ids_to_process_spec`: with files `["5.csv"]` and
existing IDs `["5"]` the extracted and existing sets agree and the diff is
empty. -/
theorem get_match_ids_to_process_spec_witness :
    ("5" ∈ get_match_ids_to_process ["5.csv"] ["5"] ↔
      "5" ∈ ["5.csv"].map get_match_id ∧ "5" ∉ ["5"]) ∧
    get_match_ids_to_process ["5.csv"] ["5"] = [] :=
  ⟨(get_match_ids_to_process_spec ["5.csv"] ["5"] "5").1,
   (get_match_ids_to_process_spec ["5.csv"] ["5"] "5").2
     (by decide) (by decide)⟩

/-- Claim C8: when the destination match-info table does not exist,
`get_existing_match_ids` returns the empty list; when it exists, the result
is duplicate-free and holds exactly the match IDs stored in the table. -/
theorem get_existing_match_ids_spec (bq bq2 : BigQueryStore) (x : String)
    (h1 : bq.matchInfoTableExists = false)
    (h2 : bq2.matchInfoTableExists = true) :
    get_existing_match_ids bq = [] ∧
    (get_existing_match_ids bq2).Nodup ∧
    (x ∈ get_existing_match_ids bq2 ↔ x ∈ bq2.matchInfoMatchIds) := by
  refine ⟨?_, ?_, ?_⟩
  · simp [get_existing_match_ids, h1]
  · simp only [get_existing_match_ids, h2, if_true]
    exact List.nodup_dedup _
  · simp [get_existing_match_ids, h2, List.mem_dedup]

/-- Witness for `get_existing_match_ids_spec`: a missing table yields `[]`;
an existing table with duplicated rows yields the distinct IDs. -/
theorem get_existing_match_ids_spec_witness :
    get_existing_match_ids (BigQueryStore.mk false ["9"]) = [] ∧
    (get_existing_match_ids (BigQueryStore.mk true ["1", "1"])).Nodup ∧
    ("1" ∈ get_existing_match_ids (BigQueryStore.mk true ["1", "1"]) ↔
      "1" ∈ (BigQueryStore.mk true ["1", "1"]).matchInfoMatchIds) :=
  get_existing_match_ids_spec (BigQueryStore.mk false ["9"])
    (BigQueryStore.mk true ["1", "1"]) "1" rfl rfl

/-- Claim C5: a match whose info CSV is missing makes `load_info_csv` log
the match ID and return the empty frame (no exception is modelled because
none can be raised on this path); with the ball file present, the ball
frame is still loaded in full, and the loop iteration still appends it to
the ball accumulator (or flushes it).  Symmetrically, `load_ball_csv` on a
match with no ball file logs the ID and returns the empty frame. -/
theorem load_missing_file_continues (d : TempDir) (match_id : String)
    (count : Nat) (st : IngestState) (d2 : TempDir) (mid2 : String)
    (hinfo : match_id ++ "_info.csv" ∉ d.infoFiles.map Prod.fst)
    (hball : match_id ++ ".csv" ∈ d.ballFiles.map Prod.fst)
    (hmiss2 : mid2 ++ ".csv" ∉ d2.ballFiles.map Prod.fst) :
    (load_info_csv d match_id).1 = [] ∧
    LogMsg.missingFile match_id true ∈ (load_info_csv d match_id).2 ∧
    (load_ball_csv d match_id).1
      = ((d.ballFiles.lookup (match_id ++ ".csv")).getD []).map fixBallRow ∧
    ((ingestStep d count st match_id).batch_ball_dfs
        = st.batch_ball_dfs ++ [(load_ball_csv d match_id).1]
      ∨ (ingestStep d count st match_id).flushes
        = st.flushes ++
            [((st.batch_info_dfs ++ [(load_info_csv d match_id).1]).flatten,
              (st.batch_ball_dfs ++ [(load_ball_csv d match_id).1]).flatten)]) ∧
    (load_ball_csv d2 mid2).1 = [] ∧
    LogMsg.missingFile mid2 false ∈ (load_ball_csv d2 mid2).2 := by
  refine ⟨?_, ?_, ?_, ?_, ?_, ?_⟩
  · simp [load_info_csv, get_valid_csv_fp, hinfo]
  · simp [load_info_csv, get_valid_csv_fp, hinfo]
  · simp [load_ball_csv, get_valid_csv_fp, hball]
  · by_cases hc :
      ((st.batch_info_dfs ++ [(load_info_csv d match_id).1]).length = batch_size ∨
        (st.batch_info_dfs ++ [(load_info_csv d match_id).1]).length
          + st.num_files_processed = count)
    · right
      simp only [ingestStep]
      rw [if_pos hc]
    · left
      simp only [ingestStep]
      rw [if_neg hc]
  · simp [load_ball_csv, get_valid_csv_fp, hmiss2]
  · simp [load_ball_csv, get_valid_csv_fp, hmiss2]

/-- Witness for `load_missing_file_continues`: match `m1` has only a ball
file; match `m3` has only an info file. -/
theorem load_missing_file_continues_witness :
    (load_info_csv tempDirOneBall "m1").1 = [] ∧
    LogMsg.missingFile "m1" true ∈ (load_info_csv tempDirOneBall "m1").2 ∧
    (load_ball_csv tempDirOneBall "m1").1
      = ((tempDirOneBall.ballFiles.lookup ("m1" ++ ".csv")).getD []).map fixBallRow ∧
    ((ingestStep tempDirOneBall 2 (initState 2) "m1").batch_ball_dfs
        = (initState 2).batch_ball_dfs ++ [(load_ball_csv tempDirOneBall "m1").1]
      ∨ (ingestStep tempDirOneBall 2 (initState 2) "m1").flushes
        = (initState 2).flushes ++
            [(((initState 2).batch_info_dfs
                ++ [(load_info_csv tempDirOneBall "m1").1]).flatten,
              ((initState 2).batch_ball_dfs
                ++ [(load_ball_csv tempDirOneBall "m1").1]).flatten)]) ∧
    (load_ball_csv tempDirInfoOnly "m3").1 = [] ∧
    LogMsg.missingFile "m3" false ∈ (load_ball_csv tempDirInfoOnly "m3").2 :=
  load_missing_file_continues tempDirOneBall "m1" 2 (initState 2)
    tempDirInfoOnly "m3" (by decide) (by decide) (by decide)

/-- Claim C6: every row of a ball frame returned by `load_ball_csv` has a
text value (possibly the empty string) in both `other_wicket_type` and
`other_player_dismissed`; the fillna repair leaves no missing value. -/
theorem load_ball_csv_no_null_dismissal (d : TempDir) (match_id : String)
    (r : BallRow) (hr : r ∈ (load_ball_csv d match_id).1) :
    (∃ s, r.other_wicket_type = some s) ∧
    (∃ s, r.other_player_dismissed = some s) := by
  simp only [load_ball_csv] at hr
  rcases hfp : (get_valid_csv_fp d match_id false).1 with _ | p
  · rw [hfp] at hr
    simp at hr
  · rw [hfp] at hr
    simp only [List.mem_map] at hr
    obtain ⟨r0, _, rfl⟩ := hr
    exact ⟨⟨r0.other_wicket_type.getD "", rfl⟩,
           ⟨r0.other_player_dismissed.getD "", rfl⟩⟩

/-- Witness for `load_ball_csv_no_null_dismissal` on a concrete directory
whose single ball file row has both dismissal columns missing. -/
theorem load_ball_csv_no_null_dismissal_witness :
    (∃ s, (fixBallRow sampleBallRow).other_wicket_type = some s) ∧
    (∃ s, (fixBallRow sampleBallRow).other_player_dismissed = some s) :=
  load_ball_csv_no_null_dismissal tempDirOneBall "m1" (fixBallRow sampleBallRow)
    (by decide)

/-- Claim C7: every row of a ball frame returned by `load_ball_csv` carries
text values in the `season` and `match_id` columns, whatever the CSV held
there (the `astype(str)` casts). -/
theorem load_ball_csv_casts_to_text (d : TempDir) (match_id : String)
    (r : BallRow) (hr : r ∈ (load_ball_csv d match_id).1) :
    (∃ s, r.season = Cell.str s) ∧ (∃ s, r.match_id = Cell.str s) := by
  have hstr : ∀ c : Cell, ∃ s, astypeStr c = Cell.str s := by
    intro c
    cases c with
    | null => exact ⟨"nan", rfl⟩
    | str s => exact ⟨s, rfl⟩
    | num n => exact ⟨toString n, rfl⟩
  simp only [load_ball_csv] at hr
  rcases hfp : (get_valid_csv_fp d match_id false).1 with _ | p
  · rw [hfp] at hr
    simp at hr
  · rw [hfp] at hr
    simp only [List.mem_map] at hr
    obtain ⟨r0, _, rfl⟩ := hr
    exact ⟨hstr r0.season, hstr r0.match_id⟩

/-- Witness for `load_ball_csv_casts_to_text` on a concrete directory whose
single ball file row has numeric `season` and `match_id` cells. -/
theorem load_ball_csv_casts_to_text_witness :
    (∃ s, (fixBallRow sampleBallRow).season = Cell.str s) ∧
    (∃ s, (fixBallRow sampleBallRow).match_id = Cell.str s) :=
  load_ball_csv_casts_to_text tempDirOneBall "m1" (fixBallRow sampleBallRow)
    (by decide)

/-- Claim C2: over a run of `ingest` on the match IDs to process, a flush
(an append of both concatenated accumulators, recorded in `flushes`)
happens at iteration `i` exactly when the accumulated count after loading
the current match reaches `batch_size` or the current match is the last of
the run; and immediately after a flush both accumulators are empty. -/
theorem ingest_flush_policy (d : TempDir) (bq : BigQueryStore)
    (ids : List String)
    (hids : ids = get_match_ids_to_process (get_csv_files (dirListing d))
      (get_existing_match_ids bq))
    (hne : ids ≠ []) (i : Nat)
    (h : i < (ingestIters d ids.length (initState ids.length) ids).length) :
    (((ingestIters d ids.length (initState ids.length) ids).get
          ⟨i, h⟩).post.flushes.length
        = ((ingestIters d ids.length (initState ids.length) ids).get
          ⟨i, h⟩).pre.flushes.length + 1 ↔
      (((ingestIters d ids.length (initState ids.length) ids).get
          ⟨i, h⟩).pre.batch_info_dfs.length + 1 = batch_size
        ∨ i + 1 = ids.length))
    ∧ (((ingestIters d ids.length (initState ids.length) ids).get
          ⟨i, h⟩).post.flushes.length
        = ((ingestIters d ids.length (initState ids.length) ids).get
          ⟨i, h⟩).pre.flushes.length + 1 →
        ((ingestIters d ids.length (initState ids.length) ids).get
          ⟨i, h⟩).post.batch_info_dfs = []
        ∧ ((ingestIters d ids.length (initState ids.length) ids).get
          ⟨i, h⟩).post.batch_ball_dfs = []) := by
  have hres := flush_policy_aux d ids.length ids (initState ids.length) 0
    rfl (Nat.zero_add _) i h
  rw [Nat.zero_add] at hres
  exact hres

/-- Witness for `ingest_flush_policy`: a run over two new matches flushes
at the second (last) iteration and leaves the accumulators empty. -/
theorem ingest_flush_policy_witness :
    (((ingestIters tempDirTwoBalls (["a", "b"] : List String).length
          (initState (["a", "b"] : List String).length) ["a", "b"]).get
          ⟨1, by decide⟩).post.flushes.length
        = ((ingestIters tempDirTwoBalls (["a", "b"] : List String).length
          (initState (["a", "b"] : List String).length) ["a", "b"]).get
          ⟨1, by decide⟩).pre.flushes.length + 1 ↔
      (((ingestIters tempDirTwoBalls (["a", "b"] : List String).length
          (initState (["a", "b"] : List String).length) ["a", "b"]).get
          ⟨1, by decide⟩).pre.batch_info_dfs.length + 1 = batch_size
        ∨ 1 + 1 = (["a", "b"] : List String).length))
    ∧ (((ingestIters tempDirTwoBalls (["a", "b"] : List String).length
          (initState (["a", "b"] : List String).length) ["a", "b"]).get
          ⟨1, by decide⟩).post.flushes.length
        = ((ingestIters tempDirTwoBalls (["a", "b"] : List String).length
          (initState (["a", "b"] : List String).length) ["a", "b"]).get
          ⟨1, by decide⟩).pre.flushes.length + 1 →
        ((ingestIters tempDirTwoBalls (["a", "b"] : List String).length
          (initState (["a", "b"] : List String).length) ["a", "b"]).get
          ⟨1, by decide⟩).post.batch_info_dfs = []
        ∧ ((ingestIters tempDirTwoBalls (["a", "b"] : List String).length
          (initState (["a", "b"] : List String).length) ["a", "b"]).get
          ⟨1, by decide⟩).post.batch_ball_dfs = []) :=
  ingest_flush_policy tempDirTwoBalls bqEmpty ["a", "b"] (by decide)
    (by decide) 1 (by decide)

/-- Claim C3 refutation on the code: with exactly one new match the final
flush prints `Processed 500 files.` — `num_files_processed` is advanced by
the constant `batch_size`, not by the actual batch length — so the printed
count neither equals the matches flushed so far (one) nor stays below the
count of new matches. -/
theorem ingest_progress_overcount :
    LogMsg.processed 500 ∈ (ingest tempDirOneBall bqEmpty).1.log ∧
    LogMsg.processed 1 ∉ (ingest tempDirOneBall bqEmpty).1.log ∧
    (get_match_ids_to_process (get_csv_files (dirListing tempDirOneBall))
      (get_existing_match_ids bqEmpty)).length = 1 ∧
    (ingest tempDirOneBall bqEmpty).1.flushes.length = 1 := by
  decide

/-- Claim C9: `get_csv_files` keeps exactly the directory entries that end
in `.csv` and do not contain the substring `_info`; consequently every
match ID entering the diff comes from such a ball-by-ball file name, so a
match whose only present file is `<id>_info.csv` never enters the diff. -/
theorem get_csv_files_spec (listing existing : List String) (x mid : String) :
    (x ∈ get_csv_files listing ↔
      x ∈ listing ∧ (∃ p, x.data = p ++ ".csv".data) ∧
        ¬ ∃ s t, x.data = s ++ "_info".data ++ t) ∧
    (mid ∈ get_match_ids_to_process (get_csv_files listing) existing →
      ∃ f, f ∈ listing ∧ (∃ p, f.data = p ++ ".csv".data) ∧
        (¬ ∃ s t, f.data = s ++ "_info".data ++ t) ∧ get_match_id f = mid) := by
  have hchar : ∀ y : String, y ∈ get_csv_files listing ↔
      y ∈ listing ∧ (∃ p, y.data = p ++ ".csv".data) ∧
        ¬ ∃ s t, y.data = s ++ "_info".data ++ t := by
    intro y
    constructor
    · intro hy
      rw [get_csv_files, List.mem_filter] at hy
      obtain ⟨hmem, hp⟩ := hy
      rw [Bool.and_eq_true, Bool.not_eq_true'] at hp
      refine ⟨hmem, (endsWithList_iff _ _).mp hp.2, ?_⟩
      intro hex
      rw [← containsList_iff] at hex
      rw [hp.1] at hex
      exact absurd hex (by simp)
    · rintro ⟨hmem, hends, hcont⟩
      rw [get_csv_files, List.mem_filter]
      refine ⟨hmem, ?_⟩
      rw [Bool.and_eq_true, Bool.not_eq_true']
      refine ⟨?_, (endsWithList_iff _ _).mpr hends⟩
      cases hb : containsList "_info".data y.data
      · rfl
      · exact absurd ((containsList_iff _ _).mp hb) hcont
  constructor
  · exact hchar x
  · intro hmid
    have hmm : mid ∈ (get_csv_files listing).map get_match_id := by
      simp only [get_match_ids_to_process] at hmid
      exact List.mem_dedup.mp (List.mem_filter.mp hmid).1
    obtain ⟨f, hf, hfm⟩ := List.mem_map.mp hmm
    obtain ⟨h1, h2, h3⟩ := (hchar f).mp hf
    exact ⟨f, h1, h2, h3, hfm⟩

/-- Witness for `get_csv_files_spec`: of `100.csv` and `200_info.csv` only
the former survives the filter, and the ID `100` in the diff stems from it. -/
theorem get_csv_files_spec_witness :
    ("100.csv" ∈ get_csv_files ["100.csv", "200_info.csv"] ↔
      "100.csv" ∈ ["100.csv", "200_info.csv"] ∧
        (∃ p, "100.csv".data = p ++ ".csv".data) ∧
        ¬ ∃ s t, "100.csv".data = s ++ "_info".data ++ t) ∧
    (∃ f, f ∈ ["100.csv", "200_info.csv"] ∧
      (∃ p, f.data = p ++ ".csv".data) ∧
      (¬ ∃ s t, f.data = s ++ "_info".data ++ t) ∧ get_match_id f = "100") :=
  ⟨(get_csv_files_spec ["100.csv", "200_info.csv"] [] "100.csv" "100").1,
   (get_csv_files_spec ["100.csv", "200_info.csv"] [] "100.csv" "100").2
     (by decide)⟩

/-- Claim C10: `delete_temp_dir` performs no action — its body is `pass`
with the `shutil.rmtree` call commented out — so every call, including the
one at the end of `ingest`, leaves the temporary directory and its files
unchanged. -/
theorem delete_temp_dir_noop (d : TempDir) (bq : BigQueryStore) :
    delete_temp_dir d = d ∧ (ingest d bq).2 = d :=
  ⟨rfl, rfl⟩

end Cricsheet
